import Mathlib

/-!
Verification development for the core of the gomavlib MAVLink networking
library.  The repository's `src/` tree contains only examples and tests of
the library; the library core itself (frame codec, channel state machine,
node) is not present, so the definitions below are modelled from the
natural-language specification (`spec.md`), faithful to its words, and the
test files are used as concrete guidance.  Bytes are modelled as `Nat`
values with explicit `% 256` reductions where machine-width overflow
matters; byte strings are `List Nat`.
-/

namespace Gomavlib

/-! ## Little-endian multi-byte encodings -/

/-- Little-endian encoding of `n` on `k` bytes (least significant first). -/
def leBytes : Nat → Nat → List Nat
  | 0, _ => []
  | k + 1, n => n % 256 :: leBytes k (n / 256)

/-- Value of a little-endian byte list (least significant first). -/
def leVal : List Nat → Nat
  | [] => 0
  | b :: bs => b + 256 * leVal bs

/-! ## X.25 CRC-16 (MCRF4XX variant, as used by MAVLink)

Modelled from the spec: "Compute CRC-16/MCRC-X25 ... Initial value `0xFFFF`;
polynomial reflected X.25", "seeded `0xFFFF` with reflected input/output". -/

/-- One byte step of the reflected X.25 CRC-16. -/
def x25Byte (crc b : Nat) : Nat :=
  let tmp := (b ^^^ (crc % 256)) % 256
  let tmp := (tmp ^^^ ((tmp <<< 4) % 256)) % 256
  ((crc / 256) ^^^ ((tmp <<< 8) % 65536) ^^^ ((tmp <<< 3) % 65536) ^^^ (tmp >>> 4)) % 65536

/-- Accumulate the X.25 CRC-16 of `data` starting from running value `crc`. -/
def x25Acc (crc : Nat) (data : List Nat) : Nat :=
  data.foldl x25Byte crc

/-- X.25 CRC-16 of a byte list, seeded with `0xFFFF`. -/
def x25 (data : List Nat) : Nat :=
  x25Acc 65535 data

/-! ## Message schemas and the CRC-extra byte -/

/-- One field of a message schema: canonical primitive type name (for
example "uint8_t"), field name, array length (0 for a scalar) and whether
the field is an extension field. -/
structure FieldDef where
  ftype : String
  fname : String
  arrayLength : Nat
  isExtension : Bool
deriving DecidableEq, Repr

/-- A message schema: message id, canonical message name and the fields in
declaration order. -/
structure MessageSchema where
  id : Nat
  name : String
  fields : List FieldDef
deriving DecidableEq, Repr

/-- Byte size of a canonical primitive type name. -/
def primitiveSize (t : String) : Nat :=
  if t = "double" ∨ t = "uint64_t" ∨ t = "int64_t" then 8
  else if t = "float" ∨ t = "uint32_t" ∨ t = "int32_t" then 4
  else if t = "uint16_t" ∨ t = "int16_t" then 2
  else 1

/-- Wire size of a field: primitive size times array length (scalars count
as length 1). -/
def fieldWireSize (f : FieldDef) : Nat :=
  primitiveSize f.ftype * max 1 f.arrayLength

/-- Insert a field into a list sorted by descending primitive size, after
all fields of greater or equal size (stability for the declaration order). -/
def insertBySizeDesc (f : FieldDef) : List FieldDef → List FieldDef
  | [] => [f]
  | g :: gs =>
      if primitiveSize g.ftype ≤ primitiveSize f.ftype then f :: g :: gs
      else g :: insertBySizeDesc f gs

/-- Modelled from the spec: "Base fields are sorted in descending primitive
size (stable otherwise); extensions keep declaration order."  Stable
descending sort by primitive size. -/
def sortBySizeDesc (fs : List FieldDef) : List FieldDef :=
  fs.foldr insertBySizeDesc []

/-- The non-extension fields of a schema, in declaration order. -/
def baseFields (s : MessageSchema) : List FieldDef :=
  s.fields.filter (fun f => !f.isExtension)

/-- The non-extension fields of a schema in wire order (descending
primitive size, stable). -/
def baseFieldsWireOrder (s : MessageSchema) : List FieldDef :=
  sortBySizeDesc (baseFields s)

/-- All fields in wire order: sorted base fields, then extension fields in
declaration order. -/
def fieldsWireOrder (s : MessageSchema) : List FieldDef :=
  baseFieldsWireOrder s ++ s.fields.filter (fun f => f.isExtension)

/-- Full packed payload length of a schema, in bytes. -/
def schemaPayloadLength (s : MessageSchema) : Nat :=
  (fieldsWireOrder s).foldl (fun n f => n + fieldWireSize f) 0

/-- The bytes of a string (character code points; canonical MAVLink names
are ASCII). -/
def strBytes (s : String) : List Nat :=
  s.data.map Char.toNat

/-- The canonical-string contribution of one field to the CRC-extra input:
"<type> <name> " with the array length appended as one raw byte for array
fields.  Modelled from the spec: "for each non-extension field
\"<type> <name> \" ... arrays appended with `length`". -/
def fieldCrcBytes (f : FieldDef) : List Nat :=
  strBytes (f.ftype ++ " ") ++ strBytes (f.fname ++ " ") ++
    (if f.arrayLength > 0 then [f.arrayLength] else [])

/-- The full canonical byte string whose X.25 CRC yields the CRC-extra:
"<message_name> " followed by each non-extension field's contribution in
wire order. -/
def crcExtraCanonical (s : MessageSchema) : List Nat :=
  strBytes (s.name ++ " ") ++ (baseFieldsWireOrder s).foldr
    (fun f acc => fieldCrcBytes f ++ acc) []

/-- Modelled from the spec: "The CRC-extra byte is the low byte of an X.25
CRC over `\"<message_name> \" + for each non-extension field
\"<type> <name> \"`", "computed once per schema at dialect-load time".
Computed incrementally, the way a dialect loader accumulates it. -/
def crcExtra (s : MessageSchema) : Nat :=
  let c := x25Acc 65535 (strBytes (s.name ++ " "))
  let c := (baseFieldsWireOrder s).foldl
    (fun c f =>
      let c := x25Acc c (strBytes (f.ftype ++ " "))
      let c := x25Acc c (strBytes (f.fname ++ " "))
      if f.arrayLength > 0 then x25Byte c f.arrayLength else c) c
  c % 256

/-- A dialect: version byte and a list of message schemas with unique ids. -/
structure Dialect where
  version : Nat
  messages : List MessageSchema
deriving DecidableEq, Repr

/-- Look up the schema for a message id in the dialect index. -/
def Dialect.find (d : Dialect) (mid : Nat) : Option MessageSchema :=
  d.messages.find? (fun s => s.id = mid)

/-! ## SHA-256 and the 6-byte truncated HMAC used for v2 signing

Modelled from the spec: "6-byte truncated SHA-256 HMAC of `(magic, length,
incompat, compat, seq, sys, comp, msg_id, payload, crc_lo, crc_hi, link_id,
timestamp6)` keyed by the 32-byte out-key".  Words are `Nat` values kept
below `2 ^ 32` by explicit reductions. -/

/-- Right rotation of a 32-bit word by `n` bits. -/
def rotr32 (n x : Nat) : Nat :=
  ((x >>> n) ||| (x <<< (32 - n))) % 4294967296

/-- The SHA-256 round constants (fractional parts of the cube roots of the
first 64 primes), written in decimal. -/
def sha256K : List Nat :=
  [1116352408, 1899447441, 3049323471, 3921009573,
   961987163, 1508970993, 2453635748, 2870763221,
   3624381080, 310598401, 607225278, 1426881987,
   1925078388, 2162078206, 2614888103, 3248222580,
   3835390401, 4022224774, 264347078, 604807628,
   770255983, 1249150122, 1555081692, 1996064986,
   2554220882, 2821834349, 2952996808, 3210313671,
   3336571891, 3584528711, 113926993, 338241895,
   666307205, 773529912, 1294757372, 1396182291,
   1695183700, 1986661051, 2177026350, 2456956037,
   2730485921, 2820302411, 3259730800, 3345764771,
   3516065817, 3600352804, 4094571909, 275423344,
   430227734, 506948616, 659060556, 883997877,
   958139571, 1322822218, 1537002063, 1747873779,
   1955562222, 2024104815, 2227730452, 2361852424,
   2428436474, 2756734187, 3204031479, 3329325298]

/-- The SHA-256 initial hash state (fractional parts of the square roots
of the first 8 primes), written in decimal. -/
def sha256H0 : List Nat :=
  [1779033703, 3144134277, 1013904242, 2773480762,
   1359893119, 2600822924, 528734635, 1541459225]

/-- Big-endian 8-byte encoding of a number (for the SHA-256 length field). -/
def beBytes8 (n : Nat) : List Nat :=
  [n / 72057594037927936 % 256, n / 281474976710656 % 256,
   n / 1099511627776 % 256, n / 4294967296 % 256,
   n / 16777216 % 256, n / 65536 % 256, n / 256 % 256, n % 256]

/-- SHA-256 padding: append `0x80`, zero bytes, and the 64-bit big-endian
bit length, reaching a multiple of 64 bytes. -/
def sha256Pad (msg : List Nat) : List Nat :=
  msg ++ [128] ++ List.replicate ((119 - msg.length % 64) % 64) 0 ++
    beBytes8 (8 * msg.length)

/-- Group a byte list into big-endian 32-bit words (groups of 4 bytes). -/
def beWords : List Nat → List Nat
  | a :: b :: c :: d :: rest =>
      (16777216 * a + 65536 * b + 256 * c + d) :: beWords rest
  | _ => []

/-- Split a byte list into successive 64-byte blocks, with fuel (any fuel
of at least the list length splits the whole list). -/
def chunks64Go : Nat → List Nat → List (List Nat)
  | 0, _ => []
  | _, [] => []
  | fuel + 1, a :: l => (a :: l).take 64 :: chunks64Go fuel ((a :: l).drop 64)

/-- Split a byte list into successive 64-byte blocks. -/
def chunks64 (l : List Nat) : List (List Nat) :=
  chunks64Go l.length l

/-- The next word of the SHA-256 message schedule, from the words so far. -/
def sha256ExtendWord (w : List Nat) : Nat :=
  let n := w.length
  let w15 := w.getD (n - 15) 0
  let w2 := w.getD (n - 2) 0
  let s0 := rotr32 7 w15 ^^^ rotr32 18 w15 ^^^ (w15 >>> 3)
  let s1 := rotr32 17 w2 ^^^ rotr32 19 w2 ^^^ (w2 >>> 10)
  (w.getD (n - 16) 0 + s0 + w.getD (n - 7) 0 + s1) % 4294967296

/-- Extend the 16-word schedule by `k` further words. -/
def sha256Schedule : Nat → List Nat → List Nat
  | 0, w => w
  | k + 1, w => sha256Schedule k (w ++ [sha256ExtendWord w])

/-- One SHA-256 compression round on the state `[a,b,c,d,e,f,g,h]`. -/
def sha256Round (st : List Nat) (ki wi : Nat) : List Nat :=
  let a := st.getD 0 0
  let b := st.getD 1 0
  let c := st.getD 2 0
  let d := st.getD 3 0
  let e := st.getD 4 0
  let f := st.getD 5 0
  let g := st.getD 6 0
  let h := st.getD 7 0
  let s1 := rotr32 6 e ^^^ rotr32 11 e ^^^ rotr32 25 e
  let ch := (e &&& f) ^^^ ((e ^^^ 4294967295) &&& g)
  let temp1 := (h + s1 + ch + ki + wi) % 4294967296
  let s0 := rotr32 2 a ^^^ rotr32 13 a ^^^ rotr32 22 a
  let maj := (a &&& b) ^^^ (a &&& c) ^^^ (b &&& c)
  let temp2 := (s0 + maj) % 4294967296
  [(temp1 + temp2) % 4294967296, a, b, c, (d + temp1) % 4294967296, e, f, g]

/-- Process one 64-byte block, updating the 8-word hash state. -/
def sha256Block (h : List Nat) (block : List Nat) : List Nat :=
  let w := sha256Schedule 48 (beWords block)
  let st := (List.zip sha256K w).foldl (fun st kw => sha256Round st kw.1 kw.2) h
  (List.zip h st).map (fun p => (p.1 + p.2) % 4294967296)

/-- Serialize 32-bit words to bytes, big-endian. -/
def wordsToBytesBE (ws : List Nat) : List Nat :=
  ws.flatMap (fun w => [w / 16777216 % 256, w / 65536 % 256, w / 256 % 256, w % 256])

/-- SHA-256 of a byte list. -/
def sha256 (msg : List Nat) : List Nat :=
  wordsToBytesBE ((chunks64 (sha256Pad msg)).foldl sha256Block sha256H0)

/-- HMAC-SHA-256 with byte-list key and message. -/
def hmacSha256 (key msg : List Nat) : List Nat :=
  let k0 := if 64 < key.length then sha256 key else key
  let kPad := k0 ++ List.replicate (64 - k0.length) 0
  let ipadded := kPad.map (fun b => b ^^^ 0x36)
  let opadded := kPad.map (fun b => b ^^^ 0x5C)
  sha256 (opadded ++ sha256 (ipadded ++ msg))

/-- The 6-byte truncated signature of v2 signing: the first 6 bytes of the
keyed HMAC-SHA-256. -/
def sig6 (key msg : List Nat) : List Nat :=
  (hmacSha256 key msg).take 6

/-! ## Payload truncation (v2) -/

/-- Modelled from the spec: "For v2, strip trailing `0x00` bytes from the
payload but keep at least 1 byte". -/
def payloadTruncate (p : List Nat) : List Nat :=
  match (p.reverse.dropWhile (fun b => b = 0)).reverse with
  | [] => if p.isEmpty then [] else [0]
  | r => r

/-- Modelled from the spec: "Re-pad payload to the schema's full length
with zeros before decoding fields." -/
def payloadPad (n : Nat) (p : List Nat) : List Nat :=
  p ++ List.replicate (n - p.length) 0

/-! ## Frames

Modelled from the spec's data model (§3): v1 frames carry sequence, system
id, component id, an 8-bit message id and a payload; v2 frames additionally
carry incompatibility and compatibility flags, a 24-bit message id and,
when signed (incompatibility bit 0), a link id and a 48-bit timestamp whose
6-byte HMAC signature is computed at encode time.  A frame holds the full
(untruncated) payload; truncation happens on the wire. -/

inductive Frame where
  | v1 (sequenceNumber systemID componentID messageID : Nat) (payload : List Nat)
  | v2 (incompatibilityFlag compatibilityFlag sequenceNumber systemID componentID
        messageID : Nat) (payload : List Nat)
       (signatureLinkID signatureTimestamp : Nat)
deriving DecidableEq, Repr

/-- MAVLink version of a frame: 1 or 2. -/
def Frame.version : Frame → Nat
  | .v1 .. => 1
  | .v2 .. => 2

def Frame.sequenceNumber : Frame → Nat
  | .v1 seq _ _ _ _ => seq
  | .v2 _ _ seq _ _ _ _ _ _ => seq

def Frame.systemID : Frame → Nat
  | .v1 _ sys _ _ _ => sys
  | .v2 _ _ _ sys _ _ _ _ _ => sys

def Frame.componentID : Frame → Nat
  | .v1 _ _ comp _ _ => comp
  | .v2 _ _ _ _ comp _ _ _ _ => comp

def Frame.messageID : Frame → Nat
  | .v1 _ _ _ mid _ => mid
  | .v2 _ _ _ _ _ mid _ _ _ => mid

def Frame.payload : Frame → List Nat
  | .v1 _ _ _ _ p => p
  | .v2 _ _ _ _ _ _ p _ _ => p

/-- A decoded message: its id and its packed payload at the schema's full
length. -/
structure Message where
  id : Nat
  payload : List Nat
deriving DecidableEq, Repr

/-- The message carried by a frame. -/
def Frame.message (f : Frame) : Message :=
  ⟨f.messageID, f.payload⟩

/-! ## Frame codec -/

/-- Parse errors of the decoder, per the spec's error taxonomy (§7).  The
unknown-message-id case carries the raw frame, which the spec says is still
delivered to the application. -/
inductive ParseError where
  | unknownMessageId (raw : Frame)
  | wrongCRC
  | wrongSignature
  | truncatedFrame
  | unsupportedVersion
deriving DecidableEq, Repr

/-- The kind of a parse error, without the attached raw frame. -/
inductive ParseErrorKind where
  | unknownMessageId
  | wrongCRC
  | wrongSignature
  | truncatedFrame
  | unsupportedVersion
deriving DecidableEq, Repr

def ParseError.kind : ParseError → ParseErrorKind
  | .unknownMessageId _ => .unknownMessageId
  | .wrongCRC => .wrongCRC
  | .wrongSignature => .wrongSignature
  | .truncatedFrame => .truncatedFrame
  | .unsupportedVersion => .unsupportedVersion

/-- Modelled from the spec: `encode(frame, schema, out_key?) -> bytes`
(§4.1).  v1: magic `0xFE`, length, sequence, system id, component id, 8-bit
message id, payload, CRC-16 little-endian.  v2: magic `0xFD`, truncated
payload length, incompatibility and compatibility flags, sequence, system
id, component id, 24-bit little-endian message id, truncated payload,
CRC-16 little-endian, and when an out-key is supplied the 13-byte signature
`(link_id, timestamp6, hmac6)`.  The CRC input runs from the length byte
through the end of the payload plus the schema's CRC-extra byte. -/
def encodeFrame (f : Frame) (s : MessageSchema) (key : Option (List Nat)) : List Nat :=
  match f with
  | .v1 seq sys comp mid payload =>
      let crc := x25 (payload.length :: seq :: sys :: comp :: mid ::
        (payload ++ [crcExtra s]))
      254 :: payload.length :: seq :: sys :: comp :: mid ::
        (payload ++ leBytes 2 crc)
  | .v2 inc cmpf seq sys comp mid payload linkId ts =>
      let tp := payloadTruncate payload
      let crc := x25 (tp.length :: inc :: cmpf :: seq :: sys :: comp ::
        (leBytes 3 mid ++ tp ++ [crcExtra s]))
      let core := 253 :: tp.length :: inc :: cmpf :: seq :: sys :: comp ::
        (leBytes 3 mid ++ tp ++ leBytes 2 crc)
      match key with
      | none => core
      | some k =>
          let sigBase := core ++ linkId :: leBytes 6 ts
          sigBase ++ sig6 k sigBase

/-- The signed portion of an encoded v2 frame: everything that the 6-byte
signature HMAC covers, i.e. the frame bytes from the magic through the
signature timestamp.  For unsigned frames this is the whole encoding. -/
def v2SignedPortion (f : Frame) (s : MessageSchema) : List Nat :=
  match f with
  | .v2 inc cmpf seq sys comp mid payload linkId ts =>
      let tp := payloadTruncate payload
      let crc := x25 (tp.length :: inc :: cmpf :: seq :: sys :: comp ::
        (leBytes 3 mid ++ tp ++ [crcExtra s]))
      (253 :: tp.length :: inc :: cmpf :: seq :: sys :: comp ::
        (leBytes 3 mid ++ tp ++ leBytes 2 crc)) ++ (linkId :: leBytes 6 ts)
  | f => encodeFrame f s none

/-- Modelled from the spec: the v2 decoding path (§4.1), applied to the
bytes after the `0xFD` magic.  Checks framing, then the signature (a
signed frame with no in-key, or an HMAC mismatch, is `WrongSignature`),
then resolves the message id in the dialect (`UnknownMessageId` still
carries the raw frame), then the CRC, and finally re-pads the payload to
the schema's full length. -/
def decodeV2 (bytes : List Nat) (d : Option Dialect) (key : Option (List Nat)) :
    Except ParseError (Frame × Option Message) :=
  match bytes with
  | len :: inc :: cmpf :: seq :: sys :: comp :: m0 :: m1 :: m2 :: rest =>
      let payload := rest.take len
      match rest.drop len with
      | c0 :: c1 :: sigrest =>
          let mid := m0 + 256 * m1 + 65536 * m2
          let sigCheck : Except ParseError (Nat × Nat) :=
            if inc % 2 = 1 then
              match key with
              | none => .error .wrongSignature
              | some k =>
                  match sigrest with
                  | l :: t0 :: t1 :: t2 :: t3 :: t4 :: t5 :: hmac =>
                      if hmac = sig6 k (253 :: len :: inc :: cmpf :: seq :: sys ::
                          comp :: m0 :: m1 :: m2 ::
                          (payload ++ [c0, c1, l, t0, t1, t2, t3, t4, t5]))
                      then .ok (l, t0 + 256 * t1 + 65536 * t2 + 16777216 * t3 +
                          4294967296 * t4 + 1099511627776 * t5)
                      else .error .wrongSignature
                  | _ => .error .truncatedFrame
            else .ok (0, 0)
          match sigCheck with
          | .error e => .error e
          | .ok (linkId, ts) =>
              let raw : Frame := .v2 inc cmpf seq sys comp mid payload linkId ts
              match d with
              | none => .error (.unknownMessageId raw)
              | some dia =>
                  match dia.find mid with
                  | none => .error (.unknownMessageId raw)
                  | some s =>
                      if c0 + 256 * c1 = x25 (len :: inc :: cmpf :: seq :: sys ::
                          comp :: m0 :: m1 :: m2 :: (payload ++ [crcExtra s]))
                      then
                        let full := payloadPad (schemaPayloadLength s) payload
                        .ok (.v2 inc cmpf seq sys comp mid full linkId ts,
                          some ⟨mid, full⟩)
                      else .error .wrongCRC
      | _ => .error .truncatedFrame
  | _ => .error .truncatedFrame

/-- Modelled from the spec: the v1 decoding path, applied to the bytes
after the `0xFE` magic.  v1 frames are never truncated and never signed. -/
def decodeV1 (bytes : List Nat) (d : Option Dialect) :
    Except ParseError (Frame × Option Message) :=
  match bytes with
  | len :: seq :: sys :: comp :: mid :: rest =>
      let payload := rest.take len
      match rest.drop len with
      | c0 :: c1 :: _ =>
          let raw : Frame := .v1 seq sys comp mid payload
          match d with
          | none => .error (.unknownMessageId raw)
          | some dia =>
              match dia.find mid with
              | none => .error (.unknownMessageId raw)
              | some s =>
                  if c0 + 256 * c1 = x25 (len :: seq :: sys :: comp :: mid ::
                      (payload ++ [crcExtra s]))
                  then .ok (raw, some ⟨mid, payload⟩)
                  else .error .wrongCRC
      | _ => .error .truncatedFrame
  | _ => .error .truncatedFrame

/-- Modelled from the spec: `decode(bytes, dialect, in_key?) ->
(frame, decoded_message) | error` (§4.1).  The first byte selects the
frame version: `0xFD` is v2, `0xFE` is v1, anything else is an unsupported
version. -/
def decodeFrame (bytes : List Nat) (d : Option Dialect) (key : Option (List Nat)) :
    Except ParseError (Frame × Option Message) :=
  match bytes with
  | 253 :: rest => decodeV2 rest d key
  | 254 :: rest => decodeV1 rest d
  | _ :: _ => .error .unsupportedVersion
  | [] => .error .truncatedFrame

/-- Well-formedness of a frame relative to a schema and a signing key: all
single-byte fields fit in a byte, the message id fits its wire width, the
payload has the schema's full packed length (at most 255 bytes), and for
v2 the signed bit agrees with the presence of the out-key (an unsigned
frame carries no link id or timestamp). -/
def FrameWF (f : Frame) (s : MessageSchema) (key : Option (List Nat)) : Prop :=
  match f with
  | .v1 seq sys comp mid payload =>
      seq < 256 ∧ sys < 256 ∧ comp < 256 ∧ mid < 256 ∧
      payload.length = schemaPayloadLength s ∧ schemaPayloadLength s ≤ 255
  | .v2 inc cmpf seq sys comp mid payload linkId ts =>
      inc < 256 ∧ cmpf < 256 ∧ seq < 256 ∧ sys < 256 ∧ comp < 256 ∧
      mid < 16777216 ∧ payload.length = schemaPayloadLength s ∧
      schemaPayloadLength s ≤ 255 ∧ linkId < 256 ∧ ts < 281474976710656 ∧
      ((inc % 2 = 1) ↔ key.isSome = true) ∧ (key = none → linkId = 0 ∧ ts = 0)

instance (f : Frame) (s : MessageSchema) (key : Option (List Nat)) :
    Decidable (FrameWF f s key) := by
  cases f <;> (unfold FrameWF; infer_instance)

instance {ε α : Type} [DecidableEq ε] [DecidableEq α] : DecidableEq (Except ε α) :=
  fun a b =>
    match a, b with
    | .ok x, .ok y => decidable_of_iff (x = y) (by simp)
    | .error x, .error y => decidable_of_iff (x = y) (by simp)
    | .ok _, .error _ => isFalse (fun h => by cases h)
    | .error _, .ok _ => isFalse (fun h => by cases h)

/-! ## Channel layer

Modelled from the spec (§4.3 and §4.1): a channel owns per-connection write
state (`last_seq_out`, `sig_link_id_out`, `sig_timestamp_out`) and, on the
read side, the signature replay bookkeeping per
`(link_id, system_id, component_id)` remote. -/

/-- A channel's identity and outbound write state. -/
structure Channel where
  id : Nat
  lastSeqOut : Nat
  sigLinkIdOut : Nat
  sigTimestampOut : Nat
deriving DecidableEq, Repr

/-- Events delivered to the application, per the spec's event model. -/
inductive Event where
  | channelOpen (channelId : Nat)
  | channelClose (channelId : Nat)
  | frame (f : Frame) (decoded : Option Message)
  | parseError (kind : ParseErrorKind)
deriving DecidableEq, Repr

/-- The replay-guard table: highest observed signature timestamp per
`(link_id, system_id, component_id)` remote.  Newer entries shadow older
ones at the head of the list. -/
structure SignatureTracker where
  entries : List ((Nat × Nat × Nat) × Nat)
deriving DecidableEq, Repr

/-- Highest observed timestamp for a remote, if any was observed. -/
def SignatureTracker.highest (st : SignatureTracker) (k : Nat × Nat × Nat) :
    Option Nat :=
  (st.entries.find? (fun e => e.1 = k)).map (fun e => e.2)

/-- Record a new highest timestamp for a remote. -/
def SignatureTracker.record (st : SignatureTracker) (k : Nat × Nat × Nat)
    (ts : Nat) : SignatureTracker :=
  ⟨(k, ts) :: st.entries⟩

/-- Modelled from the spec: "Fail with `WrongSignature` when ...
`(link_id, timestamp)` is not strictly greater than the highest observed
for the same `(system_id, component_id, link_id)` remote (replay guard)."
Applies the replay guard to a successfully decoded frame. -/
def replayCheck (st : SignatureTracker) (f : Frame) (m : Option Message) :
    SignatureTracker × Event :=
  match f with
  | .v2 inc _ _ sys comp _ _ linkId ts =>
      if inc % 2 = 1 then
        match st.highest (linkId, sys, comp) with
        | some hi =>
            if hi < ts then (st.record (linkId, sys, comp) ts, .frame f m)
            else (st, .parseError .wrongSignature)
        | none => (st.record (linkId, sys, comp) ts, .frame f m)
      else (st, .frame f m)
  | _ => (st, .frame f m)

/-- Modelled from the spec: one step of a channel's read loop (§4.3): decode
the received bytes, apply the replay guard to signed frames, and publish
either a `Frame` event or a `ParseError` event.  A frame whose message id
is unknown is still published as a raw `Frame` event with no decoded
message. -/
def channelRead (d : Option Dialect) (key : Option (List Nat))
    (st : SignatureTracker) (bytes : List Nat) : SignatureTracker × Event :=
  match decodeFrame bytes d key with
  | .ok (f, m) => replayCheck st f m
  | .error (.unknownMessageId f) => (st, .frame f none)
  | .error e => (st, .parseError e.kind)

/-! ## Node layer

Modelled from the spec (§4.5, §6, §7): endpoint configurations, the node
configuration record, construction-time validation, and the write
operations. -/

/-- Endpoint configuration variants (§3). -/
inductive EndpointConf where
  | tcpServer (bindAddr : String)
  | tcpClient (address : String)
  | udpServer (bindAddr : String)
  | udpClient (address : String)
  | udpBroadcast (broadcastAddress localBind : String)
  | serial (device : String) (baud : Nat)
  | custom (streamId : Nat)
deriving DecidableEq, Repr

/-- The local address an endpoint binds, when it binds one. -/
def EndpointConf.boundAddress : EndpointConf → Option String
  | .tcpServer b => some b
  | .udpServer b => some b
  | .udpBroadcast _ lb => some lb
  | _ => none

/-- Modelled from the spec: "duplicate endpoints" are a configuration
error and "bind conflict" is an endpoint-construction error — two
endpoints conflict when they are identical or bind the same local
address. -/
def endpointConflict (a b : EndpointConf) : Bool :=
  decide (a = b) ||
    (match a.boundAddress, b.boundAddress with
     | some x, some y => decide (x = y)
     | _, _ => false)

/-- No two endpoints of the list conflict pairwise. -/
def endpointsOk : List EndpointConf → Bool
  | [] => true
  | e :: rest => rest.all (fun e2 => !endpointConflict e e2) && endpointsOk rest

/-- The node configuration record (§6).  `outVersion` is the numeric frame
version, 1 or 2; the zero value of an unset field is 0. -/
structure NodeConf where
  endpoints : List EndpointConf
  dialect : Option Dialect
  outVersion : Nat
  outSystemID : Nat
  outComponentID : Nat
  heartbeatDisable : Bool
  inKey : Option (List Nat)
  outKey : Option (List Nat)
deriving DecidableEq, Repr

/-- Whether a message id is present in the dialect index. -/
def dialectHasMsg (d : Option Dialect) (mid : Nat) : Bool :=
  match d with
  | none => false
  | some dia => (dia.find mid).isSome

/-- Modelled from the spec: construction-time validation (§4.5, §7):
`OutVersion ∈ {V1, V2}`, `OutSystemID ∈ 1..=255`, endpoints non-empty and
pairwise non-conflicting, and a heartbeat message (id 0) present in the
dialect unless heartbeats are disabled. -/
def confValid (c : NodeConf) : Bool :=
  decide (c.outVersion = 1 ∨ c.outVersion = 2) &&
  decide (1 ≤ c.outSystemID ∧ c.outSystemID ≤ 255) &&
  !c.endpoints.isEmpty &&
  endpointsOk c.endpoints &&
  (c.heartbeatDisable || dialectHasMsg c.dialect 0)

/-- A constructed node. -/
structure Node where
  conf : NodeConf
deriving Repr

/-- Modelled from the spec: `new(config)` — construction is the only place
errors short-circuit to the caller; all validation failures are fatal
here. -/
def newNode (c : NodeConf) : Except String Node :=
  if confValid c then .ok ⟨c⟩ else .error "invalid node configuration"

/-- The component id used for locally originated messages: `OutComponentID`,
defaulting to 1 when unset. -/
def effectiveComponentID (c : NodeConf) : Nat :=
  if c.outComponentID = 0 then 1 else c.outComponentID

/-- Modelled from the spec: `write_message` "constructs a fresh v1 or v2
frame using the node's `OutSystemID`, the configured component id (default
1), the next per-channel sequence number, and the chosen version"; the
per-channel sequence counter advances modulo 256 and, for signed output,
the outbound signature timestamp advances monotonically. -/
def writeMessage (c : NodeConf) (ch : Channel) (m : Message) : Channel × Frame :=
  let f : Frame :=
    if c.outVersion = 1 then
      .v1 ch.lastSeqOut c.outSystemID (effectiveComponentID c) m.id m.payload
    else
      .v2 (if c.outKey.isSome then 1 else 0) 0 ch.lastSeqOut c.outSystemID
        (effectiveComponentID c) m.id m.payload
        (if c.outKey.isSome then ch.sigLinkIdOut else 0)
        (if c.outKey.isSome then ch.sigTimestampOut else 0)
  ({ ch with
      lastSeqOut := (ch.lastSeqOut + 1) % 256,
      sigTimestampOut :=
        if c.outKey.isSome then ch.sigTimestampOut + 1 else ch.sigTimestampOut },
   f)

/-- Modelled from the spec: `write_frame_to` ships a pre-built frame as-is
on one channel, leaving the channel's write state untouched. -/
def writeFrameTo (ch : Channel) (f : Frame) : Channel × Frame :=
  (ch, f)

/-- Modelled from the spec: `write_frame_all` ships a pre-built frame as-is
on every open channel.  Returns the `(channel id, frame)` pairs put on the
wire. -/
def writeFrameAll (chans : List Channel) (f : Frame) : List (Nat × Frame) :=
  chans.map (fun ch => (ch.id, f))

/-- Modelled from the spec: `write_frame_except` ships a pre-built frame
as-is on every open channel except the given one.  Used for relaying. -/
def writeFrameExcept (chans : List Channel) (excId : Nat) (f : Frame) :
    List (Nat × Frame) :=
  (chans.filter (fun ch => ch.id != excId)).map (fun ch => (ch.id, f))

/-- The dynamic state of a running node: its configuration, whether it has
been closed, its open channels and the queued, not yet consumed events. -/
structure NodeState where
  conf : NodeConf
  closed : Bool
  channels : List Channel
  queue : List Event
deriving Repr

/-- Modelled from the spec: `close()` — "idempotent; closes all endpoints
and channels, drains the event queue, terminates the event sequence". -/
def closeNode (n : NodeState) : NodeState :=
  { n with closed := true, channels := [] }

/-- Modelled from the spec: the remaining event sequence of a node; after
`close()` it is the already-queued events (delivered, then the sequence
ends), a finite list. -/
def nodeEvents (n : NodeState) : List Event :=
  n.queue

/-- Modelled from the spec: `write_message_all` on the node; "further
writes are no-ops" once the node is closed, otherwise one frame is emitted
per open channel. -/
def nodeWriteMessageAll (n : NodeState) (m : Message) : NodeState × List Frame :=
  if n.closed then (n, [])
  else
    let pairs := n.channels.map (fun ch => writeMessage n.conf ch m)
    ({ n with channels := pairs.map (fun p => p.1) }, pairs.map (fun p => p.2))

/-- Modelled from the spec: what a node does with bytes received on a
channel — decode against the node's dialect and in-key and publish an
event.  The node's own identity (`outSystemID`) plays no part. -/
def nodeHandleIncoming (c : NodeConf) (st : SignatureTracker)
    (bytes : List Nat) : SignatureTracker × Event :=
  channelRead c.dialect c.inKey st bytes

/-! ## Concrete fixtures

The heartbeat message of the repository's tests (`MessageHeartbeat` with
fields `Type`, `Autopilot`, `BaseMode`, `CustomMode`, `SystemStatus`,
`MavlinkVersion`), its schema, the test dialect `{3, [heartbeat]}` and the
32-byte signing keys `0x4F·32` and `0xA8·32` of `TestNodeSignature`. -/

def heartbeatSchema : MessageSchema :=
  ⟨0, "HEARTBEAT",
   [⟨"uint8_t", "type", 0, false⟩,
    ⟨"uint8_t", "autopilot", 0, false⟩,
    ⟨"uint8_t", "base_mode", 0, false⟩,
    ⟨"uint32_t", "custom_mode", 0, false⟩,
    ⟨"uint8_t", "system_status", 0, false⟩,
    ⟨"uint8_t", "mavlink_version", 0, false⟩]⟩

def testDialect : Dialect :=
  ⟨3, [heartbeatSchema]⟩

def testKey1 : List Nat :=
  List.replicate 32 0x4F

def testKey2 : List Nat :=
  List.replicate 32 0xA8

/-- The packed payload of `MessageHeartbeat{Type:1, Autopilot:2, BaseMode:3,
CustomMode:6, SystemStatus:4, MavlinkVersion:5}` (wire order puts
`custom_mode` first). -/
def testHbPayload : List Nat :=
  [6, 0, 0, 0, 1, 2, 3, 4, 5]

def testFrame1 : Frame :=
  .v2 0 0 7 11 1 0 testHbPayload 0 0

def testFrameSigned (seq ts : Nat) : Frame :=
  .v2 1 0 seq 11 1 0 testHbPayload 3 ts

/-- A frame as it appears raw off the wire when its schema is unknown:
the v2 payload is the truncated wire payload, not re-padded. -/
def truncateFramePayload (f : Frame) : Frame :=
  match f with
  | .v2 inc cmpf seq sys comp mid payload linkId ts =>
      .v2 inc cmpf seq sys comp mid (payloadTruncate payload) linkId ts
  | f => f

/-- A node configuration mirroring the tests: two UDP endpoints, the test
dialect, v2 output, system id 11, unset component id, heartbeat disabled,
no keys. -/
def testConf : NodeConf :=
  ⟨[.udpServer "127.0.0.1:5600", .udpClient "127.0.0.1:5601"],
   some testDialect, 2, 11, 0, true, none, none⟩

/-- A v2 heartbeat frame originating at system id 10 (the originator of
the routing test). -/
def testFrame10 : Frame :=
  .v2 0 0 7 10 1 0 testHbPayload 0 0

/-- Two concrete channels. -/
def testChannel1 : Channel :=
  ⟨1, 5, 0, 0⟩

def testChannel2 : Channel :=
  ⟨2, 9, 0, 0⟩

/-- The heartbeat schema with an extension field appended: same name and
same base fields as `heartbeatSchema`. -/
def heartbeatSchemaExt : MessageSchema :=
  ⟨0, "HEARTBEAT",
   [⟨"uint8_t", "type", 0, false⟩,
    ⟨"uint8_t", "autopilot", 0, false⟩,
    ⟨"uint8_t", "base_mode", 0, false⟩,
    ⟨"uint32_t", "custom_mode", 0, false⟩,
    ⟨"uint8_t", "system_status", 0, false⟩,
    ⟨"uint8_t", "mavlink_version", 0, false⟩,
    ⟨"uint8_t", "extra_field", 0, true⟩]⟩

/-- The schema of `MessageRequestDataStream` (id 66) from the tests:
fields `TargetSystem`, `TargetComponent`, `ReqStreamId`, `ReqMessageRate`,
`StartStop`. -/
def requestDataStreamSchema : MessageSchema :=
  ⟨66, "REQUEST_DATA_STREAM",
   [⟨"uint8_t", "target_system", 0, false⟩,
    ⟨"uint8_t", "target_component", 0, false⟩,
    ⟨"uint8_t", "req_stream_id", 0, false⟩,
    ⟨"uint16_t", "req_message_rate", 0, false⟩,
    ⟨"uint8_t", "start_stop", 0, false⟩]⟩

/-- A v2 frame carrying message id 66, which the test dialect (heartbeat
only) does not know. -/
def testFrame66 : Frame :=
  .v2 0 0 7 11 1 66 [4, 0, 11, 1, 0, 1] 0 0

/-! ## Helper lemmas -/

theorem length_leBytes (k n : Nat) : (leBytes k n).length = k := by
  induction k generalizing n with
  | zero => rfl
  | succ k ih => simp [leBytes, ih]

theorem leVal_leBytes (k n : Nat) (h : n < 256 ^ k) : leVal (leBytes k n) = n := by
  induction k generalizing n with
  | zero => simp at h; simp [leBytes, leVal, h]
  | succ k ih =>
      have hdiv : n / 256 < 256 ^ k := by
        rw [Nat.div_lt_iff_lt_mul (by norm_num : 0 < 256)]
        calc n < 256 ^ (k + 1) := h
        _ = 256 ^ k * 256 := by ring
      simp [leBytes, leVal, ih _ hdiv, Nat.mod_add_div]

theorem x25Byte_lt (crc b : Nat) : x25Byte crc b < 65536 :=
  Nat.mod_lt _ (by norm_num)

theorem x25Acc_lt (crc : Nat) (data : List Nat) (h : crc < 65536) :
    x25Acc crc data < 65536 := by
  induction data generalizing crc with
  | nil => exact h
  | cons b bs ih => exact ih _ (x25Byte_lt crc b)

theorem x25_lt (data : List Nat) : x25 data < 65536 :=
  x25Acc_lt _ _ (by norm_num)

theorem x25Acc_append (crc : Nat) (l₁ l₂ : List Nat) :
    x25Acc crc (l₁ ++ l₂) = x25Acc (x25Acc crc l₁) l₂ := by
  simp [x25Acc, List.foldl_append]

theorem payloadPad_payloadTruncate (p : List Nat) :
    payloadPad p.length (payloadTruncate p) = p := by
  unfold payloadTruncate payloadPad
  set q := p.reverse.dropWhile (fun b => b = 0) with hq
  set t := p.reverse.takeWhile (fun b => b = 0) with ht
  have hsplit : t ++ q = p.reverse := List.takeWhile_append_dropWhile ..
  have hzeros : ∀ b ∈ t, b = 0 := by
    intro b hb
    simpa using List.mem_takeWhile_imp hb
  have hrep : t = List.replicate t.length 0 := List.eq_replicate_iff.2 ⟨rfl, hzeros⟩
  have hp : p = q.reverse ++ t.reverse := by
    have := congrArg List.reverse hsplit
    simp at this
    exact this.symm
  have htrev : t.reverse = List.replicate t.length 0 := by
    rw [hrep]; simp
  match hqr : q.reverse with
  | [] =>
      have hqnil : q = [] := by
        have := congrArg List.reverse hqr
        simpa using this
      by_cases hpe : p = []
      · subst hpe; simp
      · have hpt : p = List.replicate t.length 0 := by
          rw [hp, hqnil, htrev]; simp
        have hlt : 1 ≤ t.length := by
          rcases Nat.eq_zero_or_pos t.length with h0 | h1
          · exfalso; apply hpe; rw [hpt, h0]; rfl
          · exact h1
        have hlp : p.length = t.length := by rw [hpt]; simp
        simp only [List.isEmpty_iff, hpe, if_false]
        rw [hlp, hpt]
        have : t.length = (t.length - 1) + 1 := by omega
        rw [this]
        simp [List.replicate_succ]
  | r :: rs =>
      rw [hp, hqr]
      simp only [List.length_append, List.length_reverse, ← hqr,
        Nat.add_sub_cancel_left, htrev, List.length_replicate]

/-- Round trip of the v2 codec at the frame level: decoding the encoding
of a v2 frame, against a dialect that maps the frame's message id to the
encoding schema and with the same key, recovers the frame and its
message. -/
theorem decodeV2_encode (inc cmpf seq sys comp mid linkId ts : Nat)
    (payload : List Nat) (s : MessageSchema) (d : Dialect)
    (key : Option (List Nat))
    (hfind : d.find mid = some s)
    (hlen : payload.length = schemaPayloadLength s)
    (hmid : mid < 16777216) (hts : ts < 281474976710656)
    (hsig : (inc % 2 = 1) ↔ key.isSome = true)
    (hnokey : key = none → linkId = 0 ∧ ts = 0) :
    decodeFrame (encodeFrame (.v2 inc cmpf seq sys comp mid payload linkId ts) s key)
      (some d) key =
      .ok (.v2 inc cmpf seq sys comp mid payload linkId ts, some ⟨mid, payload⟩) := by
  have hmid3 : mid % 256 + 256 * (mid / 256 % 256) + 65536 * (mid / 256 / 256 % 256)
      = mid := by omega
  have hpad : payloadPad (schemaPayloadLength s) (payloadTruncate payload) = payload := by
    rw [← hlen]; exact payloadPad_payloadTruncate payload
  cases key with
  | none =>
      have hinc : ¬ (inc % 2 = 1) := by simpa using hsig
      obtain ⟨hl0, ht0⟩ := hnokey rfl
      subst hl0 ht0
      simp only [encodeFrame, decodeFrame, decodeV2, leBytes, List.cons_append,
        List.nil_append, List.append_assoc]
      rw [List.take_left, List.drop_left]
      simp only [hinc, if_false, hmid3, hfind]
      set crc := x25 ((payloadTruncate payload).length :: inc :: cmpf :: seq :: sys ::
        comp :: mid % 256 :: mid / 256 % 256 :: mid / 256 / 256 % 256 ::
        (payloadTruncate payload ++ [crcExtra s])) with hcrcdef
      have hcl : crc < 65536 := x25_lt _
      have hcrc : crc % 256 + 256 * (crc / 256 % 256) = crc := by omega
      rw [hcrc]
      simp only [if_pos rfl, hpad]
      simp
  | some k =>
      have hinc : inc % 2 = 1 := hsig.mpr (by simp)
      have hts6 : ts % 256 + 256 * (ts / 256 % 256) + 65536 * (ts / 256 / 256 % 256) +
          16777216 * (ts / 256 / 256 / 256 % 256) +
          4294967296 * (ts / 256 / 256 / 256 / 256 % 256) +
          1099511627776 * (ts / 256 / 256 / 256 / 256 / 256 % 256) = ts := by omega
      simp only [encodeFrame, decodeFrame, decodeV2, leBytes, List.cons_append,
        List.nil_append, List.append_assoc]
      rw [List.take_left, List.drop_left]
      simp only [hinc, if_pos rfl, if_true]
      rw [hmid3, hts6]
      simp only [hfind]
      set crc := x25 ((payloadTruncate payload).length :: inc :: cmpf :: seq :: sys ::
        comp :: mid % 256 :: mid / 256 % 256 :: mid / 256 / 256 % 256 ::
        (payloadTruncate payload ++ [crcExtra s])) with hcrcdef
      have hcl : crc < 65536 := x25_lt _
      have hcrc : crc % 256 + 256 * (crc / 256 % 256) = crc := by omega
      rw [hcrc]
      simp only [if_pos rfl, hpad]
      simp

/-- Round trip of the v1 codec at the frame level. -/
theorem decodeV1_encode (seq sys comp mid : Nat) (payload : List Nat)
    (s : MessageSchema) (d : Dialect) (key : Option (List Nat))
    (hfind : d.find mid = some s) :
    decodeFrame (encodeFrame (.v1 seq sys comp mid payload) s key) (some d) key =
      .ok (.v1 seq sys comp mid payload, some ⟨mid, payload⟩) := by
  simp only [encodeFrame, decodeFrame, decodeV1, leBytes, List.cons_append,
    List.nil_append, List.append_assoc]
  rw [List.take_left, List.drop_left]
  simp only [hfind]
  set crc := x25 (payload.length :: seq :: sys :: comp :: mid ::
    (payload ++ [crcExtra s])) with hcrcdef
  have hcl : crc < 65536 := x25_lt _
  have hcrc : crc % 256 + 256 * (crc / 256 % 256) = crc := by omega
  rw [hcrc]
  simp

theorem x25Acc_fieldFold (c : Nat) (fs : List FieldDef) :
    x25Acc c (fs.foldr (fun f acc => fieldCrcBytes f ++ acc) []) =
    fs.foldl (fun c f =>
      let c := x25Acc c (strBytes (f.ftype ++ " "))
      let c := x25Acc c (strBytes (f.fname ++ " "))
      if f.arrayLength > 0 then x25Byte c f.arrayLength else c) c := by
  induction fs generalizing c with
  | nil => rfl
  | cons f fs ih =>
      simp only [List.foldr_cons, List.foldl_cons, x25Acc_append]
      rw [← ih]
      congr 1
      unfold fieldCrcBytes
      by_cases h : f.arrayLength > 0
      · simp [h, x25Acc_append, x25Acc]
      · simp [h, x25Acc_append, x25Acc]

theorem crcExtra_eq_canonical (s : MessageSchema) :
    crcExtra s = x25 (crcExtraCanonical s) % 256 := by
  unfold crcExtra crcExtraCanonical x25
  rw [x25Acc_append, x25Acc_fieldFold]

/-- Round trip of the codec for any well-formed frame, v1 or v2. -/
theorem decode_encode_wf (f : Frame) (s : MessageSchema) (d : Dialect)
    (key : Option (List Nat)) (hwf : FrameWF f s key)
    (hfind : d.find f.messageID = some s) :
    decodeFrame (encodeFrame f s key) (some d) key = .ok (f, some f.message) := by
  cases f with
  | v1 seq sys comp mid payload =>
      exact decodeV1_encode seq sys comp mid payload s d key hfind
  | v2 inc cmpf seq sys comp mid payload linkId ts =>
      obtain ⟨h1, h2, h3, h4, h5, hmid, hlen, h8, h9, hts, hsg, hnk⟩ := hwf
      exact decodeV2_encode inc cmpf seq sys comp mid linkId ts payload s d key
        hfind hlen hmid hts hsg hnk

/-! ## Claim theorems -/

/-- C1: For every frame F with a schema S in the dialect and out-key K,
decoding the bytes produced by encoding F with S and K, against the same
dialect and key K, returns F together with its decoded message
(encode/decode round-trip). -/
theorem encode_decode_roundtrip (f : Frame) (s : MessageSchema) (d : Dialect)
    (key : Option (List Nat)) (hwf : FrameWF f s key)
    (hfind : d.find f.messageID = some s) :
    decodeFrame (encodeFrame f s key) (some d) key = .ok (f, some f.message) :=
  decode_encode_wf f s d key hwf hfind

/-- Witness for C1: the round-trip at a concrete signed v2 heartbeat
frame with the test key. -/
theorem encode_decode_roundtrip_witness :
    FrameWF (testFrameSigned 7 1000) heartbeatSchema (some testKey1) ∧
    testDialect.find (testFrameSigned 7 1000).messageID = some heartbeatSchema ∧
    decodeFrame (encodeFrame (testFrameSigned 7 1000) heartbeatSchema (some testKey1))
      (some testDialect) (some testKey1) =
      .ok (testFrameSigned 7 1000, some (testFrameSigned 7 1000).message) :=
  ⟨by decide, by decide,
   encode_decode_roundtrip (testFrameSigned 7 1000) heartbeatSchema testDialect
     (some testKey1) (by decide) (by decide)⟩

/-- C2: For every v2 payload P, trailing zero bytes are stripped before
transmit (keeping at least one byte) and re-zero-padding on receive
reconstructs P exactly, including its trailing zeros. -/
theorem payload_truncation_roundtrip (P : List Nat) :
    payloadPad P.length (payloadTruncate P) = P ∧
    payloadTruncate P <+: P ∧
    (P ≠ [] → 1 ≤ (payloadTruncate P).length) := by
  refine ⟨payloadPad_payloadTruncate P,
    ⟨List.replicate (P.length - (payloadTruncate P).length) 0,
     payloadPad_payloadTruncate P⟩, ?_⟩
  intro hne
  unfold payloadTruncate
  split
  · simp [List.isEmpty_iff, hne]
  · rename_i l hnil
    have h1 : List.dropWhile (fun b => decide (b = 0)) P.reverse ≠ [] := by
      intro h
      exact hnil (by rw [h]; rfl)
    have h2 := List.length_pos.mpr h1
    simpa [List.length_reverse] using h2

/-- Witness for C2: the zero-pad round trip at a concrete payload with
trailing zeros. -/
theorem payload_truncation_roundtrip_witness :
    payloadPad (List.length [1, 2, 0, 0]) (payloadTruncate [1, 2, 0, 0]) = [1, 2, 0, 0] ∧
    payloadTruncate [1, 2, 0, 0] <+: [1, 2, 0, 0] ∧
    1 ≤ (payloadTruncate [1, 2, 0, 0]).length :=
  ⟨(payload_truncation_roundtrip [1, 2, 0, 0]).1,
   (payload_truncation_roundtrip [1, 2, 0, 0]).2.1,
   (payload_truncation_roundtrip [1, 2, 0, 0]).2.2 (by decide)⟩

/-- C3: The CRC-extra byte is a deterministic function of
(name, base fields) and equals the low byte of the X.25 CRC of the
canonical string "<message_name> " followed, for each non-extension field
in wire order, by "<type> <name> " with arrays appended with their
length. -/
theorem crcExtra_deterministic (s1 s2 : MessageSchema)
    (hname : s1.name = s2.name) (hbase : baseFields s1 = baseFields s2) :
    crcExtra s1 = x25 (crcExtraCanonical s1) % 256 ∧ crcExtra s1 = crcExtra s2 := by
  refine ⟨crcExtra_eq_canonical s1, ?_⟩
  unfold crcExtra baseFieldsWireOrder
  rw [hname, hbase]

/-- Witness for C3: the heartbeat schema and its extension-field variant
share name and base fields, hence the CRC-extra byte. -/
theorem crcExtra_deterministic_witness :
    crcExtra heartbeatSchema = x25 (crcExtraCanonical heartbeatSchema) % 256 ∧
    crcExtra heartbeatSchema = crcExtra heartbeatSchemaExt :=
  crcExtra_deterministic heartbeatSchema heartbeatSchemaExt rfl (by decide)

/-- C4: Given two signed frames from the same (system id, component id,
link id) with timestamps t1 < t2, receiving them in the order t2 then t1
yields one Frame event (for the t2 frame) and one WrongSignature parse
error (for the t1 frame); decoding also fails with WrongSignature when the
in-key is unset but the frame is signed, and when signature verification
fails (a key whose HMAC over the signed portion differs). -/
theorem signature_replay_guard
    (seq1 seq2 ts1 ts2 sys comp linkId inc cmpf mid : Nat)
    (p1 p2 : List Nat) (s : MessageSchema) (d : Dialect) (k k2 : List Nat)
    (hfind : d.find mid = some s)
    (hwf1 : FrameWF (.v2 inc cmpf seq1 sys comp mid p1 linkId ts1) s (some k))
    (hwf2 : FrameWF (.v2 inc cmpf seq2 sys comp mid p2 linkId ts2) s (some k))
    (hts : ts1 < ts2)
    (hne : sig6 k2 (v2SignedPortion (.v2 inc cmpf seq1 sys comp mid p1 linkId ts1) s) ≠
           sig6 k (v2SignedPortion (.v2 inc cmpf seq1 sys comp mid p1 linkId ts1) s)) :
    channelRead (some d) (some k) ⟨[]⟩
      (encodeFrame (.v2 inc cmpf seq2 sys comp mid p2 linkId ts2) s (some k)) =
      (⟨[((linkId, sys, comp), ts2)]⟩,
       .frame (.v2 inc cmpf seq2 sys comp mid p2 linkId ts2) (some ⟨mid, p2⟩)) ∧
    channelRead (some d) (some k) ⟨[((linkId, sys, comp), ts2)]⟩
      (encodeFrame (.v2 inc cmpf seq1 sys comp mid p1 linkId ts1) s (some k)) =
      (⟨[((linkId, sys, comp), ts2)]⟩, .parseError .wrongSignature) ∧
    decodeFrame (encodeFrame (.v2 inc cmpf seq1 sys comp mid p1 linkId ts1) s (some k))
      (some d) none = .error .wrongSignature ∧
    decodeFrame (encodeFrame (.v2 inc cmpf seq1 sys comp mid p1 linkId ts1) s (some k))
      (some d) (some k2) = .error .wrongSignature := by
  obtain ⟨g1, g2, g3, g4, g5, gmid, glen1, g8, g9, gts1, gsg, gnk⟩ := hwf1
  obtain ⟨f1, f2, f3, f4, f5, fmid, flen2, f8, f9, fts2, fsg, fnk⟩ := hwf2
  have hinc : inc % 2 = 1 := gsg.mpr (by simp)
  have hdec1 := decodeV2_encode inc cmpf seq1 sys comp mid linkId ts1 p1 s d (some k)
    hfind glen1 gmid gts1 gsg gnk
  have hdec2 := decodeV2_encode inc cmpf seq2 sys comp mid linkId ts2 p2 s d (some k)
    hfind flen2 fmid fts2 fsg fnk
  refine ⟨?_, ?_, ?_, ?_⟩
  · unfold channelRead
    rw [hdec2]
    unfold replayCheck
    simp [hinc, SignatureTracker.highest, SignatureTracker.record]
  · unfold channelRead
    rw [hdec1]
    unfold replayCheck
    simp only [hinc, if_pos rfl, if_true]
    have hh : SignatureTracker.highest ⟨[((linkId, sys, comp), ts2)]⟩
        (linkId, sys, comp) = some ts2 := by
      simp [SignatureTracker.highest]
    rw [hh]
    have : ¬ (ts2 < ts1) := by omega
    simp [this]
  · simp only [encodeFrame, decodeFrame, decodeV2, leBytes, List.cons_append,
      List.nil_append, List.append_assoc]
    rw [List.take_left, List.drop_left]
    simp [hinc]
  · simp only [v2SignedPortion, leBytes, List.cons_append, List.nil_append,
      List.append_assoc] at hne
    simp only [encodeFrame, decodeFrame, decodeV2, leBytes, List.cons_append,
      List.nil_append, List.append_assoc]
    rw [List.take_left, List.drop_left]
    simp only [hinc, if_pos rfl, if_true]
    rw [if_neg (fun h => hne (Eq.symm h))]

set_option maxRecDepth 1000000 in
/-- Witness for C4: the replay scenario at concrete signed heartbeat
frames with timestamps 2000 then 1000 and the test keys. -/
theorem signature_replay_guard_witness :
    (1000 : Nat) < 2000 ∧
    sig6 testKey2 (v2SignedPortion (testFrameSigned 7 1000) heartbeatSchema) ≠
      sig6 testKey1 (v2SignedPortion (testFrameSigned 7 1000) heartbeatSchema) ∧
    channelRead (some testDialect) (some testKey1) ⟨[]⟩
      (encodeFrame (testFrameSigned 8 2000) heartbeatSchema (some testKey1)) =
      (⟨[((3, 11, 1), 2000)]⟩,
       .frame (testFrameSigned 8 2000) (some ⟨0, testHbPayload⟩)) ∧
    channelRead (some testDialect) (some testKey1) ⟨[((3, 11, 1), 2000)]⟩
      (encodeFrame (testFrameSigned 7 1000) heartbeatSchema (some testKey1)) =
      (⟨[((3, 11, 1), 2000)]⟩, .parseError .wrongSignature) ∧
    decodeFrame (encodeFrame (testFrameSigned 7 1000) heartbeatSchema (some testKey1))
      (some testDialect) none = .error .wrongSignature ∧
    decodeFrame (encodeFrame (testFrameSigned 7 1000) heartbeatSchema (some testKey1))
      (some testDialect) (some testKey2) = .error .wrongSignature := by
  have hne : sig6 testKey2 (v2SignedPortion (testFrameSigned 7 1000) heartbeatSchema) ≠
      sig6 testKey1 (v2SignedPortion (testFrameSigned 7 1000) heartbeatSchema) := by
    decide
  have h := signature_replay_guard 7 8 1000 2000 11 1 3 1 0 0
    testHbPayload testHbPayload heartbeatSchema testDialect testKey1 testKey2
    (by decide) (by decide) (by decide) (by decide) hne
  exact ⟨by decide, hne, h.1, h.2.1, h.2.2.1, h.2.2.2⟩

/-- C5: write_frame_all, write_frame_except and write_frame_to ship a
pre-built frame unmodified — every relayed frame keeps its sequence
number, system id, component id, payload and signature fields — so a
receiver downstream of the relay decodes the originator's frame and
observes the originator's system and component id, not the relaying
node's. -/
theorem write_frame_ships_as_is (chans : List Channel) (ch : Channel) (excId : Nat)
    (f : Frame) (s : MessageSchema) (d : Dialect) (key : Option (List Nat))
    (relayConf : NodeConf)
    (hwf : FrameWF f s key) (hfind : d.find f.messageID = some s)
    (hsys : f.systemID ≠ relayConf.outSystemID) :
    (∀ p ∈ writeFrameAll chans f, p.2 = f) ∧
    (∀ p ∈ writeFrameExcept chans excId f, p.2 = f) ∧
    writeFrameTo ch f = (ch, f) ∧
    (∀ p ∈ writeFrameExcept chans excId f,
      decodeFrame (encodeFrame p.2 s key) (some d) key = .ok (f, some f.message) ∧
      p.2.systemID = f.systemID ∧ p.2.componentID = f.componentID ∧
      p.2.sequenceNumber = f.sequenceNumber ∧ p.2.payload = f.payload ∧
      p.2.systemID ≠ relayConf.outSystemID) := by
  have hall : ∀ p ∈ writeFrameAll chans f, p.2 = f := by
    intro p hp
    simp only [writeFrameAll, List.mem_map] at hp
    obtain ⟨c, hc, rfl⟩ := hp
    rfl
  have hexc : ∀ p ∈ writeFrameExcept chans excId f, p.2 = f := by
    intro p hp
    simp only [writeFrameExcept, List.mem_map] at hp
    obtain ⟨c, hc, rfl⟩ := hp
    rfl
  refine ⟨hall, hexc, rfl, ?_⟩
  intro p hp
  rw [hexc p hp]
  exact ⟨decode_encode_wf f s d key hwf hfind, rfl, rfl, rfl, rfl, hsys⟩

/-- Witness for C5: relaying the system-id-10 heartbeat frame across two
concrete channels of a node whose own system id is 11. -/
theorem write_frame_ships_as_is_witness :
    (∀ p ∈ writeFrameAll [testChannel1, testChannel2] testFrame10, p.2 = testFrame10) ∧
    (∀ p ∈ writeFrameExcept [testChannel1, testChannel2] 1 testFrame10,
      p.2 = testFrame10) ∧
    writeFrameTo testChannel1 testFrame10 = (testChannel1, testFrame10) ∧
    (∀ p ∈ writeFrameExcept [testChannel1, testChannel2] 1 testFrame10,
      decodeFrame (encodeFrame p.2 heartbeatSchema none) (some testDialect) none =
        .ok (testFrame10, some testFrame10.message) ∧
      p.2.systemID = testFrame10.systemID ∧
      p.2.componentID = testFrame10.componentID ∧
      p.2.sequenceNumber = testFrame10.sequenceNumber ∧
      p.2.payload = testFrame10.payload ∧
      p.2.systemID ≠ testConf.outSystemID) :=
  write_frame_ships_as_is [testChannel1, testChannel2] testChannel1 1 testFrame10
    heartbeatSchema testDialect none testConf (by decide) (by decide) (by decide)

/-- C6: Every frame produced by write_message carries the node's
OutSystemID as system id, the configured component id (1 when
OutComponentID is unset), the configured OutVersion as frame version and
the channel's next sequence number; the per-channel sequence counter
advances modulo 256 on each successful write. -/
theorem write_message_fresh_frame (c : NodeConf) (ch : Channel) (m : Message)
    (hv : c.outVersion = 1 ∨ c.outVersion = 2) :
    (writeMessage c ch m).2.systemID = c.outSystemID ∧
    (writeMessage c ch m).2.componentID =
      (if c.outComponentID = 0 then 1 else c.outComponentID) ∧
    (writeMessage c ch m).2.version = c.outVersion ∧
    (writeMessage c ch m).2.sequenceNumber = ch.lastSeqOut ∧
    (writeMessage c ch m).1.lastSeqOut = (ch.lastSeqOut + 1) % 256 := by
  rcases hv with h | h <;>
    simp [writeMessage, h, effectiveComponentID, Frame.systemID, Frame.componentID,
      Frame.version, Frame.sequenceNumber]

/-- Witness for C6: write_message at a concrete configuration (v2,
system id 11, unset component id) and channel. -/
theorem write_message_fresh_frame_witness :
    (writeMessage testConf testChannel1 ⟨0, testHbPayload⟩).2.systemID =
      testConf.outSystemID ∧
    (writeMessage testConf testChannel1 ⟨0, testHbPayload⟩).2.componentID =
      (if testConf.outComponentID = 0 then 1 else testConf.outComponentID) ∧
    (writeMessage testConf testChannel1 ⟨0, testHbPayload⟩).2.version =
      testConf.outVersion ∧
    (writeMessage testConf testChannel1 ⟨0, testHbPayload⟩).2.sequenceNumber =
      testChannel1.lastSeqOut ∧
    (writeMessage testConf testChannel1 ⟨0, testHbPayload⟩).1.lastSeqOut =
      (testChannel1.lastSeqOut + 1) % 256 :=
  write_message_fresh_frame testConf testChannel1 ⟨0, testHbPayload⟩ (by decide)

/-- C7: When a received frame's message id is not in the dialect index, or
no dialect is configured, decoding fails with UnknownMessageId, yet the
frame is still delivered to the application as a raw Frame event whose
decoded message is absent. -/
theorem unknown_message_id_event (f : Frame) (s : MessageSchema) (d : Dialect)
    (st : SignatureTracker)
    (hwf : FrameWF f s none)
    (hunk : d.find f.messageID = none) :
    decodeFrame (encodeFrame f s none) (some d) none =
      .error (.unknownMessageId (truncateFramePayload f)) ∧
    channelRead (some d) none st (encodeFrame f s none) =
      (st, .frame (truncateFramePayload f) none) ∧
    decodeFrame (encodeFrame f s none) none none =
      .error (.unknownMessageId (truncateFramePayload f)) ∧
    channelRead none none st (encodeFrame f s none) =
      (st, .frame (truncateFramePayload f) none) := by
  cases f with
  | v1 seq sys comp mid payload =>
      have hdec : ∀ dd : Option Dialect,
          (dd = none ∨ dd = some d) →
          decodeFrame (encodeFrame (.v1 seq sys comp mid payload) s none) dd none =
          .error (.unknownMessageId (.v1 seq sys comp mid payload)) := by
        intro dd hdd
        simp only [encodeFrame, decodeFrame, decodeV1, leBytes, List.cons_append,
          List.nil_append, List.append_assoc]
        rw [List.take_left, List.drop_left]
        rcases hdd with rfl | rfl
        · rfl
        · simp only [Frame.messageID] at hunk
          simp [hunk]
      refine ⟨hdec (some d) (Or.inr rfl), ?_, hdec none (Or.inl rfl), ?_⟩ <;>
        (unfold channelRead
         first
         | rw [hdec (some d) (Or.inr rfl)]
         | rw [hdec none (Or.inl rfl)]
         rfl)
  | v2 inc cmpf seq sys comp mid payload linkId ts =>
      obtain ⟨h1, h2, h3, h4, h5, hmid, hlen, h8, h9, hts, hsg, hnk⟩ := hwf
      have hinc : ¬ (inc % 2 = 1) := by simpa using hsg
      obtain ⟨hl0, ht0⟩ := hnk rfl
      subst hl0 ht0
      have hmid3 : mid % 256 + 256 * (mid / 256 % 256) + 65536 * (mid / 256 / 256 % 256)
          = mid := by omega
      have hdec : ∀ dd : Option Dialect,
          (dd = none ∨ dd = some d) →
          decodeFrame (encodeFrame (.v2 inc cmpf seq sys comp mid payload 0 0) s none)
            dd none =
          .error (.unknownMessageId
            (.v2 inc cmpf seq sys comp mid (payloadTruncate payload) 0 0)) := by
        intro dd hdd
        simp only [encodeFrame, decodeFrame, decodeV2, leBytes, List.cons_append,
          List.nil_append, List.append_assoc]
        rw [List.take_left, List.drop_left]
        simp only [hinc, if_false, hmid3]
        rcases hdd with rfl | rfl
        · rfl
        · simp only [Frame.messageID] at hunk
          simp [hunk]
      refine ⟨hdec (some d) (Or.inr rfl), ?_, hdec none (Or.inl rfl), ?_⟩ <;>
        (unfold channelRead
         first
         | rw [hdec (some d) (Or.inr rfl)]
         | rw [hdec none (Or.inl rfl)]
         rfl)

/-- Witness for C7: a frame with message id 66 received against the
heartbeat-only test dialect, and against no dialect at all. -/
theorem unknown_message_id_event_witness :
    decodeFrame (encodeFrame testFrame66 requestDataStreamSchema none)
      (some testDialect) none =
      .error (.unknownMessageId (truncateFramePayload testFrame66)) ∧
    channelRead (some testDialect) none ⟨[]⟩
      (encodeFrame testFrame66 requestDataStreamSchema none) =
      (⟨[]⟩, .frame (truncateFramePayload testFrame66) none) ∧
    decodeFrame (encodeFrame testFrame66 requestDataStreamSchema none) none none =
      .error (.unknownMessageId (truncateFramePayload testFrame66)) ∧
    channelRead none none ⟨[]⟩
      (encodeFrame testFrame66 requestDataStreamSchema none) =
      (⟨[]⟩, .frame (truncateFramePayload testFrame66) none) :=
  unknown_message_id_event testFrame66 requestDataStreamSchema testDialect ⟨[]⟩
    (by decide) (by decide)

/-- C8: Node construction fails (returning an error to the caller) exactly
for configuration errors — OutSystemID outside 1..=255, OutVersion not in
{V1, V2}, empty endpoint list, duplicate or conflicting endpoints,
heartbeat enabled without message id 0 in the dialect; in particular, two
endpoints bound to the same address make construction fail. -/
theorem node_construction_validation :
    (∀ c : NodeConf, (∃ n, newNode c = .ok n) ↔
      ((c.outVersion = 1 ∨ c.outVersion = 2) ∧
       (1 ≤ c.outSystemID ∧ c.outSystemID ≤ 255) ∧
       c.endpoints ≠ [] ∧
       endpointsOk c.endpoints = true ∧
       (c.heartbeatDisable = true ∨ dialectHasMsg c.dialect 0 = true))) ∧
    (∃ e, newNode
      ⟨[.udpServer "127.0.0.1:5600", .udpServer "127.0.0.1:5600"],
       some testDialect, 2, 11, 0, true, none, none⟩ = .error e) := by
  constructor
  · intro c
    unfold newNode
    by_cases h : confValid c = true
    · simp only [h, if_true]
      constructor
      · intro _
        have h2 := h
        simp [confValid, List.isEmpty_iff] at h2
        tauto
      · intro _
        exact ⟨⟨c⟩, rfl⟩
    · simp only [Bool.not_eq_true] at h
      simp only [h, Bool.false_eq_true, if_false]
      constructor
      · rintro ⟨n, hn⟩
        cases hn
      · intro hc
        exfalso
        have : confValid c = true := by
          simp [confValid, List.isEmpty_iff]
          tauto
        rw [this] at h
        cases h
  · exact ⟨"invalid node configuration", rfl⟩

/-- C9: close is idempotent — applying it any number of times equals
applying it once — it closes all channels, leaves the remaining event
sequence a finite list (the drained queue), and makes every subsequent
write a no-op. -/
theorem close_idempotent (n : NodeState) (m : Message) (k : Nat) :
    closeNode^[k + 1] n = closeNode n ∧
    (closeNode n).closed = true ∧
    (closeNode n).channels = [] ∧
    nodeWriteMessageAll (closeNode n) m = (closeNode n, []) ∧
    nodeEvents (closeNode n) = n.queue := by
  refine ⟨?_, rfl, rfl, ?_, rfl⟩
  · induction k with
    | zero => rfl
    | succ k ih =>
        rw [Function.iterate_succ_apply', ih]
        rfl
  · simp [nodeWriteMessageAll, closeNode]

/-- C10: A node accepts and delivers frames whose sender system id equals
the node's own OutSystemID — the receive path does not depend on the
receiver's identity at all, so two nodes configured with the same
OutSystemID still exchange messages and receive each other's Frame
events. -/
theorem no_receiver_identity_filtering (c : NodeConf) (x : Nat)
    (st : SignatureTracker) (bytes : List Nat)
    (f : Frame) (s : MessageSchema) (d : Dialect)
    (hdialect : c.dialect = some d) (hkey : c.inKey = none)
    (hwf : FrameWF f s none) (hfind : d.find f.messageID = some s)
    (hsys : f.systemID = c.outSystemID) :
    nodeHandleIncoming { c with outSystemID := x } st bytes =
      nodeHandleIncoming c st bytes ∧
    nodeHandleIncoming c st (encodeFrame f s none) =
      (st, .frame f (some f.message)) := by
  refine ⟨rfl, ?_⟩
  unfold nodeHandleIncoming channelRead
  rw [hdialect, hkey, decode_encode_wf f s d none hwf hfind]
  cases f with
  | v1 seq sys comp mid payload => rfl
  | v2 inc cmpf seq sys comp mid payload linkId ts =>
      obtain ⟨h1, h2, h3, h4, h5, hmid, hlen, h8, h9, hts, hsg, hnk⟩ := hwf
      have hinc : ¬ (inc % 2 = 1) := by simpa using hsg
      simp [replayCheck, hinc]

/-- Witness for C10: the test frame from system id 11 is delivered by a
node whose own system id is also 11, and changing the receiving node's
system id does not change the outcome. -/
theorem no_receiver_identity_filtering_witness :
    nodeHandleIncoming { testConf with outSystemID := 99 } ⟨[]⟩
        (encodeFrame testFrame1 heartbeatSchema none) =
      nodeHandleIncoming testConf ⟨[]⟩
        (encodeFrame testFrame1 heartbeatSchema none) ∧
    nodeHandleIncoming testConf ⟨[]⟩ (encodeFrame testFrame1 heartbeatSchema none) =
      (⟨[]⟩, .frame testFrame1 (some testFrame1.message)) :=
  no_receiver_identity_filtering testConf 99 ⟨[]⟩
    (encodeFrame testFrame1 heartbeatSchema none) testFrame1 heartbeatSchema
    testDialect rfl rfl (by decide) (by decide) (by decide)

end Gomavlib
